import Mathlib

/-!
A verification development for `src/pkit.js`, which exports a single function
`pRequest`.  The JavaScript runtime fragment the function exercises is embedded
shallowly: JS values form an inductive type with objects represented as
references into an explicit store, so that the aliasing and in-place mutation
performed by `pRequest` (notably `util._extend` onto a caller-supplied object)
is modelled faithfully.  The synchronous normalization phase of `pRequest`
(pkit.js lines 48-70 and 103) is `pRequestSync`; the event handlers installed
on the response (lines 71-101) are `onError`, `onClose`, `onData` folded into
`runEvents`, and `onEnd`.

External library functions (`url.parse`, `JSON.stringify`, `JSON.parse`) are
not part of this repository; following the dependency-injection reading in the
spec they are passed in as parameters, so every theorem quantifies over them.
-/

set_option autoImplicit false

namespace Pkit

/-- JavaScript runtime values.  Objects are references into a `Store`, so that
two values can alias the same mutable object, exactly as in the source
language.  Numbers are modelled as integers, which suffices for every value
`pRequest` manipulates. -/
inductive JSValue where
  | undefined
  | null
  | bool (b : Bool)
  | num (n : Int)
  | str (s : String)
  | ref (addr : Nat)
deriving Repr, DecidableEq

/-- A JavaScript object: its own properties, as a key/value association list
in insertion order. -/
abbrev JsObject := List (String × JSValue)

/-- Property read on an object: the first binding of the key, or `undefined`
when the key is absent. -/
def objGet : JsObject → String → JSValue
  | [], _ => .undefined
  | (k, v) :: rest, key => if k = key then v else objGet rest key

/-- Property write on an object: replace the first binding of the key, or
append a fresh binding when the key is absent. -/
def setField : JsObject → String → JSValue → JsObject
  | [], k, v => [(k, v)]
  | (k', v') :: rest, k, v =>
    if k' = k then (k, v) :: rest else (k', v') :: setField rest k v

/-- The `delete` operator on an object's own property. -/
def delField : JsObject → String → JsObject
  | [], _ => []
  | (k', v') :: rest, k =>
    if k' = k then delField rest k else (k', v') :: delField rest k

/-- The JavaScript `typeof` operator.  Note `typeof null` is the string
`"object"`, a language quirk several behaviours of `pRequest` hinge on. -/
def typeofJs : JSValue → String
  | .undefined => "undefined"
  | .null => "object"
  | .bool _ => "boolean"
  | .num _ => "number"
  | .str _ => "string"
  | .ref _ => "object"

/-- JavaScript truthiness, as used by `requestOptions.headers || \x7b\x7d`. -/
def truthy : JSValue → Bool
  | .undefined => false
  | .null => false
  | .bool b => b
  | .num n => n != 0
  | .str s => s != ""
  | .ref _ => true

/-- A thrown JavaScript exception.  The only exceptions this program can raise
are `TypeError`s from property access on `undefined`/`null`. -/
inductive JsErr where
  | typeError (msg : String)
deriving Repr, DecidableEq

/-- The mutable heap: objects indexed by their address. -/
structure Store where
  objs : List JsObject
deriving Repr, DecidableEq

/-- Dereference an address (total; well-formed programs never dangle). -/
def Store.getObj (s : Store) (a : Nat) : JsObject :=
  s.objs.getD a []

/-- Overwrite the object at an address. -/
def Store.setObj (s : Store) (a : Nat) (o : JsObject) : Store :=
  ⟨s.objs.set a o⟩

/-- Allocate a fresh object, returning the new store and its address. -/
def Store.alloc (s : Store) (o : JsObject) : Store × Nat :=
  (⟨s.objs ++ [o]⟩, s.objs.length)

/-- Total property read through a value: fields of a referenced object;
`undefined` on primitives (boxing exposes none of the fields we use). -/
def jsGet (s : Store) (v : JSValue) (k : String) : JSValue :=
  match v with
  | .ref a => objGet (s.getObj a) k
  | _ => .undefined

/-- Property read as evaluated by the program: reading a property of
`undefined` or `null` throws a `TypeError`. -/
def getProp (s : Store) (v : JSValue) (k : String) : Except JsErr JSValue :=
  match v with
  | .undefined => .error (.typeError ("Cannot read property " ++ k ++ " of undefined"))
  | .null => .error (.typeError ("Cannot read property " ++ k ++ " of null"))
  | .ref a => .ok (objGet (s.getObj a) k)
  | _ => .ok .undefined

/-- Property assignment: mutates a referenced object, throws on
`undefined`/`null`, and is silently ignored on other primitives
(sloppy-mode semantics, which is how the source runs). -/
def setProp (s : Store) (v : JSValue) (k : String) (x : JSValue) : Except JsErr Store :=
  match v with
  | .undefined => .error (.typeError ("Cannot set property " ++ k ++ " of undefined"))
  | .null => .error (.typeError ("Cannot set property " ++ k ++ " of null"))
  | .ref a => .ok (s.setObj a (setField (s.getObj a) k x))
  | _ => .ok s

/-- The `delete` operator through a value, with the same throwing behaviour
as assignment. -/
def delProp (s : Store) (v : JSValue) (k : String) : Except JsErr Store :=
  match v with
  | .undefined => .error (.typeError ("Cannot convert undefined to object"))
  | .null => .error (.typeError ("Cannot convert null to object"))
  | .ref a => .ok (s.setObj a (delField (s.getObj a) k))
  | _ => .ok s

/-- One assignment loop of `util._extend`: assign each listed key of `src`
onto `target` in turn, stopping at the first thrown `TypeError`. -/
def extendLoop (target src : JSValue) : List String → Store → Except JsErr Store
  | [], s => .ok s
  | k :: ks, s =>
    match setProp s target k (jsGet s src k) with
    | .error e => .error e
    | .ok s' => extendLoop target src ks s'

/-- Node's `util._extend(origin, add)`: when `add` is a (non-null) object,
assign every own key of `add` onto `origin`, iterating the key snapshot from
last to first; otherwise return `origin` untouched. -/
def jsExtend (s : Store) (target src : JSValue) : Except JsErr Store :=
  match src with
  | .ref a => extendLoop target src (((s.getObj a).map Prod.fst).reverse) s
  | _ => .ok s

/-- Outcome of the synchronous phase of `pRequest`: an already-rejected
promise (the `when.reject` path, no connection attempted), a synchronous
exception escaping to the caller (no handle produced), or a request issued
via `http.request` with the final store and the `requestOptions` value. -/
inductive SyncOutcome where
  | rejected (err : JSValue)
  | thrown (e : JsErr)
  | request (s : Store) (ro : JSValue)
deriving Repr, DecidableEq

/-- Body normalization, pkit.js lines 61-68: a body of `typeof` `"object"` is
replaced by its JSON text and the `Content-Type`/`Accept` headers are set
(creating the headers mapping when it is falsy); a string body is kept; any
other body is deleted.  `stringify` is the injected `JSON.stringify`. -/
def normalizeBody (stringify : Store → JSValue → String) (s : Store)
    (ro : JSValue) : Except JsErr Store :=
  match getProp s ro "body" with
  | .error e => .error e
  | .ok b =>
    if typeofJs b = "object" then
      match setProp s ro "body" (.str (stringify s b)) with
      | .error e => .error e
      | .ok s1 =>
        match getProp s1 ro "headers" with
        | .error e => .error e
        | .ok h =>
          let p :=
            if truthy h then (s1, h)
            else
              let (s2, a) := s1.alloc []
              (s2, JSValue.ref a)
          match setProp p.1 ro "headers" p.2 with
          | .error e => .error e
          | .ok s3 =>
            match getProp s3 ro "headers" with
            | .error e => .error e
            | .ok h2 =>
              match setProp s3 h2 "Content-Type" (.str "application/json") with
              | .error e => .error e
              | .ok s4 =>
                match getProp s4 ro "headers" with
                | .error e => .error e
                | .ok h3 => setProp s4 h3 "Accept" (.str "application/json")
    else if typeofJs b = "string" then
      .ok s
    else
      delProp s ro "body"

/-- The synchronous phase of `pRequest`, pkit.js lines 48-70: input
classification by `typeof`, target resolution from `url` (parsing a string
URL with the injected `urlParse`, using a pre-parsed object directly),
`util._extend` of the input onto the target, and body normalization.
A `thrown` outcome models an exception propagating out of `pRequest` before
any handle exists. -/
def pRequestSync (stringify : Store → JSValue → String)
    (urlParse : String → JsObject) (s : Store) (options : JSValue) : SyncOutcome :=
  if typeofJs options = "object" then
    match getProp s options "url" with
    | .error e => .thrown e
    | .ok u =>
      let p :=
        match u with
        | .str us =>
          let (s2, a) := s.alloc (urlParse us)
          (s2, JSValue.ref a)
        | _ => (s, u)
      match jsExtend p.1 p.2 options with
      | .error e => .thrown e
      | .ok s1 =>
        match normalizeBody stringify s1 p.2 with
        | .error e => .thrown e
        | .ok s2 => .request s2 p.2
  else if typeofJs options = "string" then
    match options with
    | .str us =>
      let (s2, a) := s.alloc (urlParse us)
      match normalizeBody stringify s2 (.ref a) with
      | .ok s' => .request s' (.ref a)
      | .error e => .thrown e
    | _ => .rejected (.str "Missing URL")
  else
    .rejected (.str "Missing URL")

/-- The argument `pRequest` passes to `.end(requestOptions.body)` when a
request is issued: `none` when no request is made at all, otherwise the value
of the `body` property (so `some JSValue.undefined` means the request is ended
with no payload). -/
def sentBodyOf : SyncOutcome → Option JSValue
  | .request s ro => some (jsGet s ro "body")
  | _ => none

/-- Modelled from the spec: the transport (`http.request`, not part of this
repository) issues the request with method `GET` when the options carry no
method string. -/
def effectiveMethod (s : Store) (ro : JSValue) : String :=
  match jsGet s ro "method" with
  | .str m => m
  | _ => "GET"

/-- The `requestOptions` value handed to `http.request`, when a request is
issued at all. -/
def requestTargetOf : SyncOutcome → Option JSValue
  | .request _ ro => some ro
  | _ => none

/-- A property of the issued request's options, read in the final store
(`undefined` when no request is issued). -/
def requestField (out : SyncOutcome) (k : String) : JSValue :=
  match out with
  | .request s ro => jsGet s ro k
  | _ => .undefined

/-- A property of the object a property of the issued request's options
refers to, read in the final store. -/
def requestField2 (out : SyncOutcome) (k k2 : String) : JSValue :=
  match out with
  | .request s ro => jsGet s (jsGet s ro k) k2
  | _ => .undefined

/-- The object stored at an address in the final store of an issued
request. -/
def requestObjAt (out : SyncOutcome) (a : Nat) : JsObject :=
  match out with
  | .request s _ => s.getObj a
  | _ => []

/-- The effective method of the issued request. -/
def requestMethodOf : SyncOutcome → Option String
  | .request s ro => some (effectiveMethod s ro)
  | _ => none

/-- Response headers as delivered by Node: an association list whose keys are
already lowercased header names. -/
abbrev Headers := List (String × String)

/-- Lookup of a response header by (lowercased) name; `none` models the
`undefined` read `response.headers` yields for an absent header. -/
def headerLookup : Headers → String → Option String
  | [], _ => none
  | (k, v) :: rest, key => if k = key then some v else headerLookup rest key

/-- The `body` property of the response object: the accumulated text, or the
structured value `JSON.parse` produced. -/
inductive RespBody where
  | text (s : String)
  | json (v : JSValue)
deriving Repr, DecidableEq

/-- The success value `pRequest` resolves with, pkit.js lines 96-100. -/
structure ResValue where
  statusCode : Int
  headers : Headers
  body : RespBody
deriving Repr, DecidableEq

/-- The values `pRequest` can reject its promise with: a transport error
passed through as-is from the `error` event; the synthesized
`Error` with message `Connection closed.`; or a JSON parse error whose
`response` property carries the response (status code, headers, and the raw
accumulated text standing in `response.body` at rejection time). -/
inductive RejValue where
  | transport (err : String)
  | connClosed
  | parseError (msg : String) (statusCode : Int) (headers : Headers) (rawBody : String)
deriving Repr, DecidableEq

/-- The single-shot deferred created by `when.defer()`: it settles at most
once; `resolve`/`reject` on an already-settled deferred are no-ops. -/
inductive Deferred where
  | pending
  | resolvedD (v : ResValue)
  | rejectedD (e : RejValue)
deriving Repr, DecidableEq

/-- Resolve attempt on the deferred (no-op once settled). -/
def Deferred.resolve (d : Deferred) (v : ResValue) : Deferred :=
  match d with
  | .pending => .resolvedD v
  | _ => d

/-- Reject attempt on the deferred (no-op once settled). -/
def Deferred.reject (d : Deferred) (e : RejValue) : Deferred :=
  match d with
  | .pending => .rejectedD e
  | _ => d

/-- The `error` handler on the request, pkit.js lines 71-73. -/
def onError (err : String) (d : Deferred) : Deferred :=
  d.reject (.transport err)

/-- The `close` handler on the response, pkit.js lines 78-80. -/
def onClose (d : Deferred) : Deferred :=
  d.reject .connClosed

/-- The `end` handler on the response, pkit.js lines 84-101, run on the
accumulated buffer `buf`.  It sets `response.body` to the buffer; when the
`content-type` header's first 16 characters are exactly `application/json`
it parses the buffer (replacing `response.body` on success, rejecting with
the annotated error on failure — note the code still falls through to
`deferred.resolve`, a no-op after the rejection); it then resolves with the
status code, headers and `response.body`.  When the `content-type` header is
absent the `.slice` call throws a `TypeError` out of the handler: the result
is `Except.error` and the deferred is left untouched.  `parse` is the
injected `JSON.parse`, throwing by returning `Except.error`. -/
def onEnd (parse : String → Except String JSValue) (sc : Int) (hs : Headers)
    (buf : String) (d : Deferred) : Except JsErr Deferred :=
  match headerLookup hs "content-type" with
  | none => .error (.typeError "Cannot read property slice of undefined")
  | some ct =>
    if ct.take 16 = "application/json" then
      match parse buf with
      | .ok v => .ok (d.resolve ⟨sc, hs, .json v⟩)
      | .error msg =>
        let d2 := d.reject (.parseError msg sc hs buf)
        .ok (d2.resolve ⟨sc, hs, .text buf⟩)
    else
      .ok (d.resolve ⟨sc, hs, .text buf⟩)

/-- An event delivered on the response object. -/
inductive RespEvent where
  | closeEv
  | dataEv (chunk : String)
  | endEv
deriving Repr, DecidableEq

/-- Result of delivering a sequence of response events: either all handlers
returned normally, or one threw — `crashed` records the escaped exception and
the state of the deferred at that moment (the exception propagates out of the
event emitter; it never settles the deferred). -/
inductive RunResult where
  | finished (d : Deferred)
  | crashed (e : JsErr) (d : Deferred)
deriving Repr, DecidableEq

/-- Deliver response events in order, threading the accumulating text buffer
(`data` appends in arrival order, line 82) and the deferred through the
handlers of pkit.js lines 77-101. -/
def runEvents (parse : String → Except String JSValue) (sc : Int) (hs : Headers) :
    List RespEvent → String → Deferred → RunResult
  | [], _, d => .finished d
  | .closeEv :: rest, buf, d => runEvents parse sc hs rest buf (onClose d)
  | .dataEv c :: rest, buf, d => runEvents parse sc hs rest (buf ++ c) d
  | .endEv :: rest, buf, d =>
    match onEnd parse sc hs buf d with
    | .ok d2 => runEvents parse sc hs rest buf d2
    | .error e => .crashed e d

/-- The state of the deferred after a run, whether or not a handler threw. -/
def RunResult.deferredOf : RunResult → Deferred
  | .finished d => d
  | .crashed _ d => d

/-- A concrete stand-in for `JSON.stringify` used to instantiate theorems at
concrete inputs; on `null` it returns the JSON text `null`, as
`JSON.stringify(null)` does. -/
def stubStringify : Store → JSValue → String :=
  fun _ v => match v with
  | .null => "null"
  | _ => "stub"

/-- A concrete stand-in for `url.parse` used to instantiate theorems at
concrete inputs: it yields only target fields, never `method`, `body` or
`headers`, as Node's `url.parse` does. -/
def stubUrlParse : String → JsObject :=
  fun u => [("host", JSValue.str "example.com"), ("path", JSValue.str u)]

/-- A concrete stand-in for `JSON.parse` used to instantiate theorems at
concrete inputs: it accepts exactly the text `1`. -/
def stubParse : String → Except String JSValue :=
  fun s => if s = "1" then .ok (.num 1) else .error "Unexpected token"

/-! Helper lemmas about objects, deferreds and event runs. -/

@[simp] theorem objGet_setField_self (o : JsObject) (k : String) (v : JSValue) :
    objGet (setField o k v) k = v := by
  induction o with
  | nil => simp [setField, objGet]
  | cons p rest ih =>
    obtain ⟨k', v'⟩ := p
    by_cases h : k' = k <;> simp [setField, objGet, h, ih]

@[simp] theorem objGet_setField_ne (o : JsObject) (k k' : String) (v : JSValue)
    (h : k' ≠ k) : objGet (setField o k' v) k = objGet o k := by
  induction o with
  | nil => simp [setField, objGet, h]
  | cons p rest ih =>
    obtain ⟨k₀, v₀⟩ := p
    by_cases h0 : k₀ = k' <;> by_cases h1 : k₀ = k <;>
      simp_all [setField, objGet]

@[simp] theorem objGet_delField_self (o : JsObject) (k : String) :
    objGet (delField o k) k = .undefined := by
  induction o with
  | nil => simp [delField, objGet]
  | cons p rest ih =>
    obtain ⟨k', v'⟩ := p
    by_cases h : k' = k <;> simp [delField, objGet, h, ih]

@[simp] theorem objGet_delField_ne (o : JsObject) (k k' : String) (h : k' ≠ k) :
    objGet (delField o k') k = objGet o k := by
  induction o with
  | nil => simp [delField, objGet]
  | cons p rest ih =>
    obtain ⟨k₀, v₀⟩ := p
    by_cases h0 : k₀ = k' <;> by_cases h1 : k₀ = k <;>
      simp_all [delField, objGet]

theorem Deferred.reject_settled (d : Deferred) (e : RejValue) (h : d ≠ .pending) :
    d.reject e = d := by
  cases d <;> simp_all [Deferred.reject]

theorem Deferred.resolve_settled (d : Deferred) (v : ResValue) (h : d ≠ .pending) :
    d.resolve v = d := by
  cases d <;> simp_all [Deferred.resolve]

/-- Once the deferred is settled, no later response event changes it: data
only grows the buffer, `close` and the settlement attempts inside the `end`
handler are no-ops, and an exception thrown by the `end` handler leaves it
as-is. -/
theorem runEvents_settled (p : String → Except String JSValue) (sc : Int)
    (hs : Headers) (evs : List RespEvent) (buf : String) (d : Deferred)
    (hd : d ≠ .pending) :
    (runEvents p sc hs evs buf d).deferredOf = d := by
  induction evs generalizing buf d with
  | nil => simp [runEvents, RunResult.deferredOf]
  | cons ev rest ih =>
    cases ev with
    | closeEv =>
      simp [runEvents, onClose, Deferred.reject_settled _ _ hd, ih _ _ hd]
    | dataEv c => simp [runEvents, ih _ _ hd]
    | endEv =>
      simp only [runEvents]
      cases hct : headerLookup hs "content-type" with
      | none => simp [onEnd, hct, RunResult.deferredOf]
      | some ct =>
        by_cases hpre : ct.take 16 = "application/json"
        · cases hp : p buf with
          | ok v =>
            simp [onEnd, hct, hpre, hp, Deferred.resolve_settled _ _ hd, ih _ _ hd]
          | error m =>
            simp [onEnd, hct, hpre, hp, Deferred.reject_settled _ _ hd,
              Deferred.resolve_settled _ _ hd, ih _ _ hd]
        · simp [onEnd, hct, hpre, Deferred.resolve_settled _ _ hd, ih _ _ hd]

/-- Concatenation of the data chunks in arrival order, as performed by the
`data` handler of pkit.js line 82. -/
def concatChunks : List String → String
  | [] => ""
  | c :: cs => c ++ concatChunks cs

/-- Delivering a block of data events appends their chunks, in order, to the
accumulating buffer. -/
theorem runEvents_data (p : String → Except String JSValue) (sc : Int)
    (hs : Headers) (chunks : List String) (rest : List RespEvent) (buf : String)
    (d : Deferred) :
    runEvents p sc hs (chunks.map RespEvent.dataEv ++ rest) buf d
      = runEvents p sc hs rest (buf ++ concatChunks chunks) d := by
  induction chunks generalizing buf with
  | nil => simp [concatChunks]
  | cons c cs ih =>
    simp [runEvents, concatChunks, ih, String.append_assoc]

/-! The claims. -/

/-- C1: for a completed response whose `content-type` header's first 16
characters equal `application/json` and whose accumulated body text is valid
JSON, the completion handle resolves with the response's status code and
headers and with `body` equal to the JSON-parsed value of the accumulated
text. -/
theorem json_response_resolves_parsed (p : String → Except String JSValue)
    (sc : Int) (hs : Headers) (chunks : List String) (ct : String) (v : JSValue)
    (hct : headerLookup hs "content-type" = some ct)
    (hpre : ct.take 16 = "application/json")
    (hp : p (concatChunks chunks) = .ok v) :
    (runEvents p sc hs (chunks.map RespEvent.dataEv ++ [RespEvent.endEv])
        "" .pending).deferredOf
      = .resolvedD ⟨sc, hs, .json v⟩ := by
  rw [runEvents_data]
  simp [runEvents, onEnd, hct, hpre, String.empty_append, hp, Deferred.resolve,
    RunResult.deferredOf]

theorem json_response_resolves_parsed_witness :
    (runEvents stubParse 200 [("content-type", "application/json")]
        ([RespEvent.dataEv "1"] ++ [RespEvent.endEv]) "" .pending).deferredOf
      = .resolvedD ⟨200, [("content-type", "application/json")], .json (.num 1)⟩ :=
  json_response_resolves_parsed stubParse 200 _ ["1"] "application/json" (.num 1)
    (by decide) (by decide) rfl

/-- C2: for a completed response whose `content-type` begins with
`application/json` but whose accumulated text fails to parse, the handle
rejects with the parse error annotated with the response's status code,
headers and raw accumulated text; the fall-through `deferred.resolve` in the
source is a no-op on the already-rejected single-shot deferred, so the handle
is never resolved with a success value. -/
theorem json_parse_failure_rejects (p : String → Except String JSValue)
    (sc : Int) (hs : Headers) (chunks : List String) (ct msg : String)
    (hct : headerLookup hs "content-type" = some ct)
    (hpre : ct.take 16 = "application/json")
    (hp : p (concatChunks chunks) = .error msg) :
    (runEvents p sc hs (chunks.map RespEvent.dataEv ++ [RespEvent.endEv])
        "" .pending).deferredOf
      = .rejectedD (.parseError msg sc hs (concatChunks chunks)) := by
  rw [runEvents_data]
  simp [runEvents, onEnd, hct, hpre, String.empty_append, hp, Deferred.reject,
    Deferred.resolve, RunResult.deferredOf]

theorem json_parse_failure_rejects_witness :
    (runEvents stubParse 404 [("content-type", "application/json")]
        ([RespEvent.dataEv "nonsense"] ++ [RespEvent.endEv]) "" .pending).deferredOf
      = .rejectedD (.parseError "Unexpected token" 404
          [("content-type", "application/json")] (concatChunks ["nonsense"])) :=
  json_parse_failure_rejects stubParse 404 _ ["nonsense"] "application/json"
    "Unexpected token" (by decide) (by decide) rfl

/-- C3 counterexample: a completed response whose headers hold no
`content-type` entry does not reject the completion handle — the read
`response.headers` followed by `.slice` throws a `TypeError` out of the `end`
handler and the deferred is left pending, so this error kind escapes by a path
other than rejection, contradicting the claim. -/
theorem missing_content_type_escapes :
    runEvents stubParse 200 [("x-frame-options", "DENY")] [RespEvent.endEv]
        "" .pending
      = .crashed (.typeError "Cannot read property slice of undefined") .pending := by
  decide

/-- C3 amended: transport errors are surfaced to the caller by rejecting the
completion handle with the error as-is, but a completed response with no
`content-type` header is not: the `end` handler throws a `TypeError`, the
exception escapes the handler, and the handle is left pending (never
rejected). -/
theorem error_kinds_amended :
    (∀ err : String, onError err Deferred.pending
        = Deferred.rejectedD (RejValue.transport err)) ∧
    (∀ (p : String → Except String JSValue) (sc : Int) (hs : Headers)
        (rest : List RespEvent) (buf : String),
      headerLookup hs "content-type" = none →
        runEvents p sc hs (RespEvent.endEv :: rest) buf Deferred.pending
          = RunResult.crashed
              (JsErr.typeError "Cannot read property slice of undefined")
              Deferred.pending) := by
  constructor
  · intro err
    rfl
  · intro p sc hs rest buf hnone
    simp [runEvents, onEnd, hnone]

theorem error_kinds_amended_witness :
    runEvents stubParse 500 [] [RespEvent.endEv, RespEvent.closeEv] "partial"
        Deferred.pending
      = RunResult.crashed
          (JsErr.typeError "Cannot read property slice of undefined")
          Deferred.pending :=
  error_kinds_amended.2 stubParse 500 [] [RespEvent.closeEv] "partial" rfl

/-- C7: whenever the connection closes before the end-of-response signal, the
completion handle rejects with the synthesized connection-closed error, no
matter how much data has been buffered beforehand; the rejection value carries
no body, so the partial buffer is discarded, and the single-shot deferred
ignores any later settlement attempt. -/
theorem close_before_end_rejects (p : String → Except String JSValue)
    (sc : Int) (hs : Headers) (pre post : List RespEvent) (buf : String)
    (hpre : RespEvent.endEv ∉ pre) :
    (runEvents p sc hs (pre ++ RespEvent.closeEv :: post) buf .pending).deferredOf
      = .rejectedD .connClosed := by
  revert hpre
  induction pre generalizing buf with
  | nil =>
    intro _
    simp only [List.nil_append, runEvents, onClose, Deferred.reject]
    exact runEvents_settled p sc hs post buf _ (by simp)
  | cons ev rest ih =>
    intro hpre
    cases ev with
    | closeEv =>
      simp only [List.cons_append, runEvents, onClose, Deferred.reject]
      exact runEvents_settled p sc hs _ buf _ (by simp)
    | dataEv c =>
      simp only [List.cons_append, runEvents]
      exact ih (buf ++ c) (by simp_all)
    | endEv => simp at hpre

theorem close_before_end_rejects_witness :
    (runEvents stubParse 200 [("content-type", "text/plain")]
        ([RespEvent.dataEv "par", RespEvent.dataEv "tial"]
          ++ RespEvent.closeEv :: [RespEvent.endEv]) "" .pending).deferredOf
      = .rejectedD .connClosed :=
  close_before_end_rejects stubParse 200 [("content-type", "text/plain")]
    [RespEvent.dataEv "par", RespEvent.dataEv "tial"] [RespEvent.endEv] ""
    (by decide)

/-- C4 counterexample: `typeof null` is the string `object`, so a `null`
input takes the object branch, where reading `null.url` throws a synchronous
`TypeError` — `pRequest(null)` therefore raises an exception instead of
returning a handle rejected with the string `Missing URL`, contradicting the
claim. -/
theorem null_input_throws :
    pRequestSync stubStringify stubUrlParse ⟨[]⟩ JSValue.null
      = .thrown (.typeError "Cannot read property url of null") := rfl

/-- C4 amended: for every input whose `typeof` is neither `string` nor
`object` — numbers, booleans, `undefined` — `pRequest` returns an
already-rejected handle carrying the literal string `Missing URL` without
issuing any request; a `null` input, whose `typeof` is `object`, instead
throws a synchronous `TypeError` and produces no handle at all. -/
theorem invalid_input_amended :
    (∀ (f : Store → JSValue → String) (g : String → JsObject) (s : Store)
        (v : JSValue), typeofJs v ≠ "string" → typeofJs v ≠ "object" →
      pRequestSync f g s v = .rejected (.str "Missing URL")) ∧
    (∀ (f : Store → JSValue → String) (g : String → JsObject) (s : Store),
      pRequestSync f g s JSValue.null
        = .thrown (.typeError "Cannot read property url of null")) := by
  constructor
  · intro f g s v h1 h2
    cases v <;> simp_all [pRequestSync, typeofJs]
  · intro f g s
    rfl

theorem invalid_input_amended_witness :
    pRequestSync stubStringify stubUrlParse ⟨[]⟩ (JSValue.num 42)
      = SyncOutcome.rejected (JSValue.str "Missing URL") :=
  invalid_input_amended.1 stubStringify stubUrlParse ⟨[]⟩ (JSValue.num 42)
    (by decide) (by decide)

/-- C5 counterexample: a structured input with `body: null` does not have its
body removed — `typeof null` is `object`, so the body is serialized
(`JSON.stringify(null)` is the text `null`) and transmitted, with the JSON
headers set; the value handed to `.end` is the string `null`, not
`undefined`, contradicting the claim that no body is sent. -/
theorem null_body_is_transmitted :
    sentBodyOf (pRequestSync stubStringify stubUrlParse
        ⟨[[("url", JSValue.str "http://x"), ("body", JSValue.null)]]⟩
        (JSValue.ref 0))
      = some (JSValue.str "null") := by
  decide

/-- C5 amended: for every structured input whose resolved body has a
`typeof` other than `object` and `string` — absent, `undefined`, number, or
boolean — the `body` field is deleted and the request is ended with no
payload; a `null` body is excluded, since `typeof null` is `object` and such
a body is serialized and transmitted instead. -/
theorem nonstring_nonobject_body_dropped (f : Store → JSValue → String)
    (g : String → JsObject) (u : String) (b : JSValue)
    (hb1 : typeofJs b ≠ "object") (hb2 : typeofJs b ≠ "string") :
    sentBodyOf (pRequestSync f g
        ⟨[[("url", JSValue.str u), ("body", b)]]⟩ (JSValue.ref 0))
      = some JSValue.undefined := by
  cases b <;>
    simp_all [pRequestSync, normalizeBody, jsExtend, extendLoop, getProp,
      setProp, delProp, jsGet, typeofJs, truthy, Store.getObj, Store.setObj,
      Store.alloc, sentBodyOf, objGet]

theorem nonstring_nonobject_body_dropped_witness :
    sentBodyOf (pRequestSync stubStringify stubUrlParse
        ⟨[[("url", JSValue.str "http://x"), ("body", JSValue.bool true)]]⟩
        (JSValue.ref 0))
      = some JSValue.undefined :=
  nonstring_nonobject_body_dropped stubStringify stubUrlParse "http://x"
    (JSValue.bool true) (by decide) (by decide)

/-- C10 counterexample: an object input with the numeric `url: 42` does not
raise a synchronous exception — `requestOptions` becomes the primitive `42`,
property writes on a primitive are silently ignored in sloppy mode, the
`delete` of the body is a no-op, and the primitive is handed to
`http.request`, so a request outcome (and hence a handle) is produced,
contradicting the claim that every non-string, non-object `url` value throws. -/
theorem numeric_url_does_not_throw :
    pRequestSync stubStringify stubUrlParse
        ⟨[[("url", JSValue.num 42)]]⟩ (JSValue.ref 0)
      = .request ⟨[[("url", JSValue.num 42)]]⟩ (JSValue.num 42) := by
  decide

/-- C10 amended: for every object input whose `url` field is `undefined`
(in particular absent) or `null`, `pRequest` raises a synchronous `TypeError`
— the `util._extend` assignment or the subsequent `body` read hits
`undefined`/`null` — so no handle is produced; other primitive `url` values
such as numbers do not throw, because property writes on primitives are
silently ignored. -/
theorem url_undef_or_null_throws (f : Store → JSValue → String)
    (g : String → JsObject) (o : JsObject)
    (hu : objGet o "url" = JSValue.undefined ∨ objGet o "url" = JSValue.null) :
    ∃ e, pRequestSync f g ⟨[o]⟩ (JSValue.ref 0) = .thrown e := by
  rcases hu with hu | hu
  · cases hks : (List.map Prod.fst o).reverse with
    | nil =>
      exact ⟨.typeError "Cannot read property body of undefined",
        by simp [pRequestSync, normalizeBody, jsExtend, extendLoop, getProp,
          typeofJs, Store.getObj, hu, hks]⟩
    | cons k ks =>
      exact ⟨.typeError ("Cannot set property " ++ k ++ " of undefined"),
        by simp [pRequestSync, normalizeBody, jsExtend, extendLoop, getProp,
          setProp, typeofJs, Store.getObj, hu, hks]⟩
  · cases hks : (List.map Prod.fst o).reverse with
    | nil =>
      exact ⟨.typeError "Cannot read property body of null",
        by simp [pRequestSync, normalizeBody, jsExtend, extendLoop, getProp,
          typeofJs, Store.getObj, hu, hks]⟩
    | cons k ks =>
      exact ⟨.typeError ("Cannot set property " ++ k ++ " of null"),
        by simp [pRequestSync, normalizeBody, jsExtend, extendLoop, getProp,
          setProp, typeofJs, Store.getObj, hu, hks]⟩

theorem url_undef_or_null_throws_witness :
    ∃ e, pRequestSync stubStringify stubUrlParse
        ⟨[[("method", JSValue.str "POST")]]⟩ (JSValue.ref 0) = .thrown e :=
  url_undef_or_null_throws stubStringify stubUrlParse
    [("method", JSValue.str "POST")] (Or.inl (by decide))

/-- C8: for every string input `u`, the issued request's options are exactly
the object `url.parse` produced from `u` (with its absent `body` field
deleted, a no-op): the request carries no body (`.end` receives `undefined`),
no method field — so the transport issues a `GET` — and no headers, and every
target field (scheme, host, port, path, query) is exactly as parsed from `u`.
The hypotheses record what Node's `url.parse` guarantees: its result never
carries `body`, `method` or `headers` fields. -/
theorem string_input_is_bare_get (f : Store → JSValue → String)
    (g : String → JsObject) (u : String)
    (hb : objGet (g u) "body" = JSValue.undefined)
    (hm : objGet (g u) "method" = JSValue.undefined)
    (hh : objGet (g u) "headers" = JSValue.undefined) :
    requestTargetOf (pRequestSync f g ⟨[]⟩ (JSValue.str u)) = some (JSValue.ref 0)
    ∧ sentBodyOf (pRequestSync f g ⟨[]⟩ (JSValue.str u)) = some JSValue.undefined
    ∧ requestMethodOf (pRequestSync f g ⟨[]⟩ (JSValue.str u)) = some "GET"
    ∧ requestField (pRequestSync f g ⟨[]⟩ (JSValue.str u)) "headers" = JSValue.undefined
    ∧ ∀ k, k ≠ "body" →
        requestField (pRequestSync f g ⟨[]⟩ (JSValue.str u)) k = objGet (g u) k := by
  refine ⟨?_, ?_, ?_, ?_, ?_⟩
  · simp [pRequestSync, normalizeBody, typeofJs, getProp, delProp, jsGet,
      Store.getObj, Store.setObj, Store.alloc, requestTargetOf, hb]
  · simp [pRequestSync, normalizeBody, typeofJs, getProp, delProp, jsGet,
      Store.getObj, Store.setObj, Store.alloc, sentBodyOf, hb]
  · simp [pRequestSync, normalizeBody, typeofJs, getProp, delProp, jsGet,
      Store.getObj, Store.setObj, Store.alloc, requestMethodOf,
      effectiveMethod, hb, hm]
  · simp [pRequestSync, normalizeBody, typeofJs, getProp, delProp, jsGet,
      Store.getObj, Store.setObj, Store.alloc, requestField, hb, hh]
  · intro k hk
    simp [pRequestSync, normalizeBody, typeofJs, getProp, delProp, jsGet,
      Store.getObj, Store.setObj, Store.alloc, requestField, hb,
      objGet_delField_ne (g u) k "body" (Ne.symm hk)]

theorem string_input_is_bare_get_witness :
    requestTargetOf (pRequestSync stubStringify stubUrlParse ⟨[]⟩
        (JSValue.str "http://x")) = some (JSValue.ref 0)
    ∧ sentBodyOf (pRequestSync stubStringify stubUrlParse ⟨[]⟩
        (JSValue.str "http://x")) = some JSValue.undefined
    ∧ requestMethodOf (pRequestSync stubStringify stubUrlParse ⟨[]⟩
        (JSValue.str "http://x")) = some "GET"
    ∧ requestField (pRequestSync stubStringify stubUrlParse ⟨[]⟩
        (JSValue.str "http://x")) "headers" = JSValue.undefined
    ∧ ∀ k, k ≠ "body" →
        requestField (pRequestSync stubStringify stubUrlParse ⟨[]⟩
          (JSValue.str "http://x")) k = objGet (stubUrlParse "http://x") k :=
  string_input_is_bare_get stubStringify stubUrlParse "http://x"
    (by decide) (by decide) (by decide)

/-- A store holding a canonical structured input object at address 0 — a
string `url`, an arbitrary `method` value, a `body` referring to the separate
object at address 1, and `headers` absent (`undefined`). -/
def structuredInputStore (u : String) (m : JSValue) (bodyObj : JsObject) : Store :=
  ⟨[[("url", JSValue.str u), ("method", m), ("body", JSValue.ref 1),
     ("headers", JSValue.undefined)], bodyObj]⟩

/-- C6: for every structured input whose resolved body is a non-string
object, the transmitted request body is the JSON serialization of that very
body object (the serializer is applied, in a store where the body object is
unchanged, to the reference the `body` field holds), and the request headers
mapping — freshly created here, since the input carried none — holds
`Content-Type: application/json` and `Accept: application/json`. -/
theorem structured_body_serialized (f : Store → JSValue → String)
    (g : String → JsObject) (u : String) (m : JSValue) (bodyObj : JsObject) :
    requestTargetOf (pRequestSync f g (structuredInputStore u m bodyObj)
        (JSValue.ref 0)) = some (JSValue.ref 2)
    ∧ (∃ σ : Store, σ.getObj 1 = bodyObj
        ∧ requestField (pRequestSync f g (structuredInputStore u m bodyObj)
            (JSValue.ref 0)) "body" = JSValue.str (f σ (JSValue.ref 1)))
    ∧ requestField (pRequestSync f g (structuredInputStore u m bodyObj)
        (JSValue.ref 0)) "headers" = JSValue.ref 3
    ∧ requestField2 (pRequestSync f g (structuredInputStore u m bodyObj)
        (JSValue.ref 0)) "headers" "Content-Type"
        = JSValue.str "application/json"
    ∧ requestField2 (pRequestSync f g (structuredInputStore u m bodyObj)
        (JSValue.ref 0)) "headers" "Accept" = JSValue.str "application/json" := by
  refine ⟨?_, ⟨⟨[[("url", JSValue.str u), ("method", m), ("body", JSValue.ref 1),
      ("headers", JSValue.undefined)], bodyObj,
      setField (setField (setField (setField (g u) "headers" JSValue.undefined)
        "body" (JSValue.ref 1)) "method" m) "url" (JSValue.str u)]⟩,
      rfl, ?_⟩, ?_, ?_, ?_⟩ <;>
    simp [structuredInputStore, pRequestSync, normalizeBody, jsExtend,
      extendLoop, getProp, setProp, delProp, jsGet, typeofJs, truthy,
      Store.getObj, Store.setObj, Store.alloc, requestTargetOf, requestField,
      requestField2, objGet]

/-- A store holding a canonical structured input object at address 0 whose
`url` field is the pre-parsed target object at address 1, whose `body` refers
to the object at address 2, and whose `headers` refers to the mapping at
address 3. -/
def preparsedInputStore (m : JSValue) (urlObj bodyObj hObj : JsObject) : Store :=
  ⟨[[("url", JSValue.ref 1), ("method", m), ("body", JSValue.ref 2),
     ("headers", JSValue.ref 3)], urlObj, bodyObj, hObj]⟩

/-- C9: for an object input whose `url` is a pre-parsed target object, the
options handed to the transport are that very caller-owned object (the same
reference, address 1): the input's `method` is written onto it, its
structured body is replaced in place by the JSON serialization, its `headers`
field still references the caller's mapping (address 3), into which the
`Content-Type` and `Accept` entries are written — so after the call the
caller's object is observably different from the `urlObj` contents it held
before. -/
theorem preparsed_url_object_mutated (f : Store → JSValue → String)
    (g : String → JsObject) (m : JSValue) (urlObj bodyObj hObj : JsObject)
    (hm : objGet urlObj "method" ≠ m) :
    requestTargetOf (pRequestSync f g (preparsedInputStore m urlObj bodyObj hObj)
        (JSValue.ref 0)) = some (JSValue.ref 1)
    ∧ requestField (pRequestSync f g (preparsedInputStore m urlObj bodyObj hObj)
        (JSValue.ref 0)) "method" = m
    ∧ (∃ σ : Store, σ.getObj 2 = bodyObj
        ∧ requestField (pRequestSync f g
            (preparsedInputStore m urlObj bodyObj hObj) (JSValue.ref 0)) "body"
          = JSValue.str (f σ (JSValue.ref 2)))
    ∧ requestField (pRequestSync f g (preparsedInputStore m urlObj bodyObj hObj)
        (JSValue.ref 0)) "headers" = JSValue.ref 3
    ∧ requestObjAt (pRequestSync f g (preparsedInputStore m urlObj bodyObj hObj)
        (JSValue.ref 0)) 3
        = setField (setField hObj "Content-Type" (JSValue.str "application/json"))
            "Accept" (JSValue.str "application/json")
    ∧ requestObjAt (pRequestSync f g (preparsedInputStore m urlObj bodyObj hObj)
        (JSValue.ref 0)) 1 ≠ urlObj := by
  refine ⟨?_, ?_, ⟨⟨[[("url", JSValue.ref 1), ("method", m), ("body", JSValue.ref 2),
      ("headers", JSValue.ref 3)],
      setField (setField (setField (setField urlObj "headers" (JSValue.ref 3))
        "body" (JSValue.ref 2)) "method" m) "url" (JSValue.ref 1),
      bodyObj, hObj]⟩, rfl, ?_⟩, ?_, ?_, ?_⟩
  · simp [preparsedInputStore, pRequestSync, normalizeBody, jsExtend,
      extendLoop, getProp, setProp, delProp, jsGet, typeofJs, truthy,
      Store.getObj, Store.setObj, Store.alloc, requestTargetOf, objGet]
  · simp [preparsedInputStore, pRequestSync, normalizeBody, jsExtend,
      extendLoop, getProp, setProp, delProp, jsGet, typeofJs, truthy,
      Store.getObj, Store.setObj, Store.alloc, requestField, objGet]
  · simp [preparsedInputStore, pRequestSync, normalizeBody, jsExtend,
      extendLoop, getProp, setProp, delProp, jsGet, typeofJs, truthy,
      Store.getObj, Store.setObj, Store.alloc, requestField, objGet]
  · simp [preparsedInputStore, pRequestSync, normalizeBody, jsExtend,
      extendLoop, getProp, setProp, delProp, jsGet, typeofJs, truthy,
      Store.getObj, Store.setObj, Store.alloc, requestField, objGet]
  · simp [preparsedInputStore, pRequestSync, normalizeBody, jsExtend,
      extendLoop, getProp, setProp, delProp, jsGet, typeofJs, truthy,
      Store.getObj, Store.setObj, Store.alloc, requestObjAt, objGet]
  · intro he
    apply hm
    rw [← he]
    simp [preparsedInputStore, pRequestSync, normalizeBody, jsExtend,
      extendLoop, getProp, setProp, delProp, jsGet, typeofJs, truthy,
      Store.getObj, Store.setObj, Store.alloc, requestObjAt, objGet]

theorem preparsed_url_object_mutated_witness :
    requestTargetOf (pRequestSync stubStringify stubUrlParse
        (preparsedInputStore (JSValue.str "POST") [("host", JSValue.str "h")]
          [("a", JSValue.num 1)] [("X-Auth", JSValue.str "t")])
        (JSValue.ref 0)) = some (JSValue.ref 1)
    ∧ requestField (pRequestSync stubStringify stubUrlParse
        (preparsedInputStore (JSValue.str "POST") [("host", JSValue.str "h")]
          [("a", JSValue.num 1)] [("X-Auth", JSValue.str "t")])
        (JSValue.ref 0)) "method" = JSValue.str "POST"
    ∧ (∃ σ : Store, σ.getObj 2 = [("a", JSValue.num 1)]
        ∧ requestField (pRequestSync stubStringify stubUrlParse
            (preparsedInputStore (JSValue.str "POST") [("host", JSValue.str "h")]
              [("a", JSValue.num 1)] [("X-Auth", JSValue.str "t")])
            (JSValue.ref 0)) "body"
          = JSValue.str (stubStringify σ (JSValue.ref 2)))
    ∧ requestField (pRequestSync stubStringify stubUrlParse
        (preparsedInputStore (JSValue.str "POST") [("host", JSValue.str "h")]
          [("a", JSValue.num 1)] [("X-Auth", JSValue.str "t")])
        (JSValue.ref 0)) "headers" = JSValue.ref 3
    ∧ requestObjAt (pRequestSync stubStringify stubUrlParse
        (preparsedInputStore (JSValue.str "POST") [("host", JSValue.str "h")]
          [("a", JSValue.num 1)] [("X-Auth", JSValue.str "t")])
        (JSValue.ref 0)) 3
        = setField (setField [("X-Auth", JSValue.str "t")] "Content-Type"
            (JSValue.str "application/json")) "Accept"
            (JSValue.str "application/json")
    ∧ requestObjAt (pRequestSync stubStringify stubUrlParse
        (preparsedInputStore (JSValue.str "POST") [("host", JSValue.str "h")]
          [("a", JSValue.num 1)] [("X-Auth", JSValue.str "t")])
        (JSValue.ref 0)) 1 ≠ [("host", JSValue.str "h")] :=
  preparsed_url_object_mutated stubStringify stubUrlParse (JSValue.str "POST")
    [("host", JSValue.str "h")] [("a", JSValue.num 1)] [("X-Auth", JSValue.str "t")]
    (by decide)

end Pkit
